import Mathlib

/-!
Verification of the ha-ecoguard data-acquisition and reconciliation pipeline.

This file gives a shallow embedding, in Lean, of the core pipeline of the
integration: the Swedish month-name resolver, the yearly-summary rate
derivation, the month cache, the current-month and hourly-rolling entry
assembly, the merge/sort into `historical_entries`, the cost-series rate
lookup, and the per-cycle fetch orchestrator with its error policy
(`src/coordinator.py`), plus the cumulative-statistics builder
(`src/__init__.py`).

Modelling conventions:
- kWh, cost and rate values are `ℚ` (the code uses Python floats; the claims
  under study are about control flow and accumulation structure, not float
  rounding).
- Python `None` becomes `Option.none`; a fallible call becomes `Except PyErr`.
- Python dicts keyed by `(year, month)` become association lists where an
  assignment prepends and a lookup takes the first match, so later
  assignments shadow earlier ones exactly as dict assignment does.
- Python sets become lists managed with a membership-checked insert.
- Strings are processed character-by-character (`String.data`) with
  structurally recursive helpers so that every definition evaluates inside
  the kernel.
-/

/-- Exceptions of the embedded code. `authFailed` stands for Home Assistant's
`ConfigEntryAuthFailed`, `updateFailed` for `UpdateFailed`, `transport` for
`aiohttp` errors, `valueError` for Python `ValueError` (raised e.g. by
`datetime` constructors on out-of-range fields), `zeroDivision` for
`ZeroDivisionError`. -/
inductive PyErr where
  | authFailed : PyErr
  | updateFailed : PyErr
  | transport : PyErr
  | valueError : PyErr
  | zeroDivision : PyErr
deriving DecidableEq

instance {ε α : Type _} [DecidableEq ε] [DecidableEq α] : DecidableEq (Except ε α) :=
  fun a b =>
  match a, b with
  | .ok x, .ok y => decidable_of_iff (x = y) (by simp)
  | .ok _, .error _ => isFalse (fun h => Except.noConfusion h)
  | .error _, .ok _ => isFalse (fun h => Except.noConfusion h)
  | .error e, .error f => decidable_of_iff (e = f) (by simp)

/-- ASCII lowercasing of one character; models `str.lower` on the ASCII
month names and year digits that reach `resolve_month` (coordinator.py:232
applies `.lower()` before splitting). -/
def lowerChar (c : Char) : Char :=
  if 'A' ≤ c ∧ c ≤ 'Z' then Char.ofNat (c.toNat + 32) else c

/-- Accumulator-passing whitespace tokenizer: models Python `str.split()`
with no separator argument, which splits on runs of whitespace and drops
empty tokens. -/
def tokensAux : List Char → List Char → List (List Char)
  | [], acc => if acc = [] then [] else [acc.reverse]
  | c :: rest, acc =>
    if c.isWhitespace then
      if acc = [] then tokensAux rest [] else acc.reverse :: tokensAux rest []
    else tokensAux rest (c :: acc)

/-- Whitespace tokens of a character list (Python `str.split()`). -/
def tokens (l : List Char) : List (List Char) := tokensAux l []

/-- Value of a nonempty all-digit character list; `none` when empty or when
any character is not an ASCII digit. -/
def digitsValAux : Option Nat → List Char → Option Nat
  | acc, [] => acc
  | acc, c :: rest =>
    if c.isDigit then digitsValAux (some ((acc.getD 0) * 10 + (c.toNat - 48))) rest
    else none

/-- Python `int(token)` on a whitespace-free token: an optional single sign
followed by at least one ASCII decimal digit; `none` models `ValueError`.
(Python additionally accepts underscore group separators and non-ASCII
digits; those never occur in the scraped tables this code parses.) -/
def pyInt? : List Char → Option Int
  | '-' :: rest => (digitsValAux none rest).map (fun n => -(n : Int))
  | '+' :: rest => (digitsValAux none rest).map (fun n => (n : Int))
  | l => (digitsValAux none l).map (fun n => (n : Int))

/-- The fixed 12-entry Swedish month lexicon, `SWEDISH_MONTHS` of
coordinator.py:22. -/
def SWEDISH_MONTHS : List (String × Nat) :=
  [("januari", 1), ("februari", 2), ("mars", 3), ("april", 4),
   ("maj", 5), ("juni", 6), ("juli", 7), ("augusti", 8),
   ("september", 9), ("oktober", 10), ("november", 11), ("december", 12)]

/-- Dictionary lookup `SWEDISH_MONTHS.get(tok)` (coordinator.py:235). -/
def monthsGet (t : String) : Option Nat :=
  (SWEDISH_MONTHS.find? (fun p => p.1 == t)).map (fun p => p.2)

/-- The month-label resolver inlined at coordinator.py:232-241 (and mirrored
by `_parse_swedish_month` in the test suite): lowercase the label, split on
whitespace, require exactly two tokens, look the first up in the month
lexicon (values 1..12 are never falsy, so `if not month_num` is exactly a
`none` test), parse the second with `int`. -/
def resolve_month (name : String) : Option (Int × Nat) :=
  match (tokens (name.data.map lowerChar)).map String.mk with
  | [p0, p1] =>
    match monthsGet p0 with
    | none => none
    | some m =>
      match pyInt? p1.data with
      | none => none
      | some y => some (y, m)
  | _ => none

/-- Calendar date (tz-aware dates all carry the single zone
`Europe/Stockholm`, so the zone is not modelled). -/
structure Date where
  year : Int
  month : Nat
  day : Nat
deriving DecidableEq

/-- Timestamp with hour resolution, as produced by the pipeline's
`datetime(year, month, day, hour, tzinfo=TZ_STOCKHOLM)` constructions. -/
structure DT where
  date : Date
  hour : Nat
deriving DecidableEq

/-- Chronological sort key of a timestamp. On the timestamps the pipeline
constructs (month in 1..12, day in 1..31, hour in 0..23) this is strictly
monotone in lexicographic (year, month, day, hour) order, which is how
Python compares same-zone aware datetimes. -/
def DT.key (d : DT) : Int :=
  ((d.date.year * 13 + (d.date.month : Int)) * 32 + (d.date.day : Int)) * 24 + (d.hour : Int)

/-- Leap-year test of the proleptic Gregorian calendar used by
`datetime`. -/
def isLeap (y : Int) : Bool :=
  (y % 4 == 0 && y % 100 != 0) || (y % 400 == 0)

/-- Number of days of a month, as `datetime` validates the day field. -/
def daysInMonth (y : Int) (m : Nat) : Nat :=
  if m = 2 then (if isLeap y then 29 else 28)
  else if m = 4 ∨ m = 6 ∨ m = 9 ∨ m = 11 then 30
  else 31

/-- Separator split keeping empty pieces (Python `str.split(sep)`); always
returns at least one piece. -/
def splitOnAux (sep : Char) : List Char → List Char → List (List Char)
  | [], acc => [acc.reverse]
  | c :: rest, acc =>
    if c = sep then acc.reverse :: splitOnAux sep rest []
    else splitOnAux sep rest (c :: acc)

/-- Pieces of a character list split on a separator character. -/
def splitOn (sep : Char) (l : List Char) : List (List Char) := splitOnAux sep l []

/-- Parse of `datetime.strptime(s, "%Y-%m-%d")`: exactly three dash-separated
fields, a 4-digit year, a 1-2 digit month in 1..12 and a 1-2 digit day valid
for that month; `none` models the `ValueError` the callers catch and turn
into a row skip. -/
def parseDate (l : List Char) : Option Date :=
  match splitOn '-' l with
  | [ys, ms, ds] =>
    if ys.length = 4 ∧ 1 ≤ ms.length ∧ ms.length ≤ 2 ∧ 1 ≤ ds.length ∧ ds.length ≤ 2 then
      match digitsValAux none ys, digitsValAux none ms, digitsValAux none ds with
      | some y, some m, some d =>
        if 1 ≤ m ∧ m ≤ 12 ∧ 1 ≤ d ∧ d ≤ daysInMonth (y : Int) m then
          some ⟨(y : Int), m, d⟩
        else none
      | _, _, _ => none
    else none
  | _ => none

/-- Key of the rate and month caches: a (year, month) pair as resolved from
a month label. -/
abbrev MKey := Int × Nat

/-- A reconciled series entry: (timestamp, kWh). -/
abbrev Entry := DT × ℚ

/-- The `_cached_month_rates` dict: an association list where assignment
prepends (so a later assignment for the same key shadows an earlier one, as
dict assignment overwrites) and lookup takes the first match. -/
abbrev RateMap := List (MKey × ℚ)

/-- Dict lookup `d.get(k)` returning `none` when the key is absent. -/
def dictGet (m : RateMap) (k : MKey) : Option ℚ :=
  (m.find? (fun p => p.1 == k)).map (fun p => p.2)

/-- Dict assignment `d[k] = v`. -/
def dictSet (m : RateMap) (k : MKey) (v : ℚ) : RateMap := (k, v) :: m

/-- Set insert `s.add(k)` on the `_cached_months` set. -/
def insertMonth (s : List MKey) (k : MKey) : List MKey :=
  if k ∈ s then s else k :: s

/-- Python float division, which raises `ZeroDivisionError` on a zero
divisor. -/
def pyDiv (a b : ℚ) : Except PyErr ℚ :=
  if b = 0 then .error .zeroDivision else .ok (a / b)

/-- One yearly-summary row as staged in the data dict by `_fetch_yearly`
(coordinator.py:174-182): label text and parsed total kWh / total cost. A
row with fewer than three cells writes none of its keys; it is modelled with
an empty label, which the scan skips exactly as a missing key (`if not
name`) does. -/
structure MonthRow where
  name : String
  kwh : Option ℚ
  cost : Option ℚ
deriving DecidableEq

/-- The rate-derivation step at coordinator.py:243-246 for one resolved row:
`if kwh_total and cost_total: rates[(year, month)] = cost_total / kwh_total`.
Python truthiness on `float | None` is "not `None` and not zero", so the
division runs only under that guard; its divisor is the row's total kWh. -/
def rateStep (rates : RateMap) (y : Int) (m : Nat) (kwh cost : Option ℚ) :
    Except PyErr RateMap :=
  match kwh, cost with
  | some kq, some cq =>
    if kq = 0 ∨ cq = 0 then .ok rates
    else
      match pyDiv cq kq with
      | .ok v => .ok (dictSet rates (y, m) v)
      | .error e => .error e
  | _, _ => .ok rates

/-- The first loop of `_fetch_historical` (coordinator.py:228-250): walk the
yearly rows in order; for each row that resolves to a (year, month), run the
rate-derivation step, then collect the month into `new_months` when it is
not yet cached. Collecting a new month evaluates
`datetime(year, month, 1).timestamp()`, whose constructor raises
`ValueError` outside years 1..9999; the error aborts the walk, keeping the
rate updates already made (the dict is mutated in place). -/
def scanYearly (rates : RateMap) (cached : List MKey) :
    List MonthRow → RateMap × Except PyErr (List MKey)
  | [] => (rates, .ok [])
  | row :: rest =>
    if row.name = "" then scanYearly rates cached rest
    else
      match resolve_month row.name with
      | none => scanYearly rates cached rest
      | some (y, m) =>
        match rateStep rates y m row.kwh row.cost with
        | .error e => (rates, .error e)
        | .ok rates' =>
          if (y, m) ∈ cached then scanYearly rates' cached rest
          else if 1 ≤ y ∧ y ≤ 9999 then
            match scanYearly rates' cached rest with
            | (ratesF, .ok ms) => (ratesF, .ok ((y, m) :: ms))
            | (ratesF, .error e) => (ratesF, .error e)
          else (rates', .error .valueError)

/-- Daily rows of a fetched per-month table, after `_parse_daily_table`
already dropped short rows and absent values: (date text, kWh). Converted to
local-midnight timestamps at coordinator.py:258-263, skipping rows whose
date text `strptime` rejects. -/
def monthRowsToEntries (rows : List (String × ℚ)) : List Entry :=
  rows.filterMap (fun r => (parseDate r.1.data).map (fun d => (⟨d, 0⟩, r.2)))

/-- The per-new-month fetch loop of coordinator.py:252-265: for each month
of `new_months` in order, issue the daily-table fetch (logged even when the
transport fails), append the parsed entries to the persistent cache and mark
the month cached; a transport error aborts the loop, keeping the mutations
already made. -/
def fetchNewMonths (fetchMonth : MKey → Except PyErr (List (String × ℚ)))
    (entries : List Entry) (cached : List MKey) (log : List MKey) :
    List MKey → List Entry × List MKey × List MKey × Except PyErr Unit
  | [] => (entries, cached, log, .ok ())
  | k :: rest =>
    match fetchMonth k with
    | .error e => (entries, cached, log ++ [k], .error e)
    | .ok rows =>
      fetchNewMonths fetchMonth (entries ++ monthRowsToEntries rows)
        (insertMonth cached k) (log ++ [k]) rest

/-- The current-entry assembly of coordinator.py:270-282: keep daily rows
with a nonempty date text and a present kWh whose date parses and differs
from the literal calendar day `today` (`datetime.now(TZ_STOCKHOLM).date()`),
converted to local-midnight timestamps. -/
def currentEntriesOf (today : Date) (daily : List (String × Option ℚ)) :
    List Entry :=
  daily.filterMap (fun e =>
    if e.1 = "" then none
    else
      match e.2 with
      | none => none
      | some kwh =>
        match parseDate e.1.data with
        | none => none
        | some d => if d = today then none else some ((⟨d, 0⟩ : DT), kwh))

/-- The hourly-row assembly of coordinator.py:292-306: for each row (time
label, parsed kWh), skip absent kWh, parse the leading hour number of the
label (`int(label.split(":")[0])`, a `ValueError` skipping the row), then
build `datetime(today.year, today.month, today.day, hour)` — the row is
placed on the literal current day whatever the hour is, and an hour outside
0..23 raises `ValueError` out of the whole fetch. -/
def hourlyRowsToEntries (today : Date) :
    List (String × Option ℚ) → Except PyErr (List Entry)
  | [] => .ok []
  | (label, kwh?) :: rest =>
    match kwh? with
    | none => hourlyRowsToEntries today rest
    | some kwh =>
      match pyInt? ((splitOn ':' label.data).headD []) with
      | none => hourlyRowsToEntries today rest
      | some h =>
        if 0 ≤ h ∧ h < 24 then
          match hourlyRowsToEntries today rest with
          | .ok tail => .ok (((⟨today, h.toNat⟩ : DT), kwh) :: tail)
          | .error e => .error e
        else .error .valueError

/-- Comparison used to sort the merged series: `sort(key=lambda x: x[0])`,
i.e. chronological order of the timestamp. -/
def entryLe (a b : Entry) : Prop := a.1.key ≤ b.1.key

instance : DecidableRel entryLe := fun a b => inferInstanceAs (Decidable (a.1.key ≤ b.1.key))

instance : IsTotal Entry entryLe := ⟨fun a b => Int.le_total a.1.key b.1.key⟩

instance : IsTrans Entry entryLe := ⟨fun _ _ _ hab hbc => le_trans hab hbc⟩

/-- Python `list.sort` is a stable ascending sort by the key function;
insertion sort is stable for the same comparison, so it computes the same
list. -/
def pySort (l : List Entry) : List Entry := l.insertionSort entryLe

/-- The current-rate fallback of coordinator.py:267:
`data.get("price_per_kwh", 0.0) or 0.0`. The outer `Option` is key
presence, the inner one a possibly-`None` stored rate; both absence and any
falsy value collapse to 0. -/
def currentRateOf (p : Option (Option ℚ)) : ℚ :=
  match p with
  | some (some r) => if r = 0 then 0 else r
  | _ => 0

/-- The cost-series assembly of coordinator.py:312-316: annotate every
merged entry with `rates.get((dt.year, dt.month), current_rate)`. -/
def costEntriesOf (rates : RateMap) (currentRate : ℚ) (entries : List Entry) :
    List (DT × ℚ × ℚ) :=
  entries.map (fun e => (e.1, e.2, (dictGet rates (e.1.date.year, e.1.date.month)).getD currentRate))

/-- The long-lived coordinator state (`self._cached_month_entries`,
`self._cached_month_rates`, `self._cached_months`, `self.historical_entries`,
`self.historical_cost_entries` of coordinator.py:118-122). -/
structure CoordState where
  cachedMonthEntries : List Entry
  cachedMonthRates : RateMap
  cachedMonths : List MKey
  historical_entries : List Entry
  historical_cost_entries : List (DT × ℚ × ℚ)
deriving DecidableEq

/-- The freshly constructed coordinator state (coordinator.py:118-122). -/
def initState : CoordState := ⟨[], [], [], [], []⟩

/-- The per-cycle `data` dict, restricted to the fields the reconciliation
engine and the claims read. A `none` field is an absent key (its sub-fetch
failed or found no table body). `pricePerKwh`'s inner `Option` is a stored
`None` rate (`Components[0].get("Rate")` may be `None`). -/
structure Snapshot where
  monthRows : Option (List MonthRow)
  currentMonthDaily : Option (List (String × Option ℚ))
  todayDate : Option (Option String)
  pricePerKwh : Option (Option ℚ)
deriving DecidableEq

/-- Outcomes of one cycle's network interactions, playing the role of a test
double for the portal: each sub-fetch either fails in transport/parsing or
delivers its parsed payload. For `yearlyResult` and `monthlyResult`, `ok
none` is a page without a table body (the fetch returns without writing any
field); `fetchMonth` is the per-month daily-table endpoint; `today` is
`datetime.now(TZ_STOCKHOLM).date()` at the time of the historical fetch. -/
structure Inputs where
  loginResult : Except PyErr Unit
  yearlyResult : Except PyErr (Option (List MonthRow))
  monthlyResult : Except PyErr (Option (List (String × Option ℚ)))
  priceResult : Except PyErr (Option (Option ℚ))
  hourlyResult : Except PyErr (List (String × Option ℚ))
  fetchMonth : MKey → Except PyErr (List (String × ℚ))
  today : Date

/-- The `today_date` pointer computed by `_fetch_monthly`
(coordinator.py:201-215): the date text of the last row with a present kWh
value, `None` when no row has one. -/
def todayDateOf (rows : List (String × Option ℚ)) : Option String :=
  rows.foldl (fun acc r => match r.2 with | some _ => some r.1 | none => acc) none

/-- Helper naming the state after the cache-touching part of
`_fetch_historical` has run (the map, entry and month caches replaced by
their new values but `historical_entries` not yet reassigned). -/
def cachesUpdated (st : CoordState) (rates' : RateMap) (entries' : List Entry)
    (cached' : List MKey) : CoordState :=
  { st with
      cachedMonthRates := rates'
      cachedMonthEntries := entries'
      cachedMonths := cached' }

/-- Tail of `_fetch_historical` after the caches are updated
(coordinator.py:267-316): compute the current-rate fallback, assemble the
current-month entries, fetch and assemble the hourly rows (either step's
error propagates, leaving `historical_entries` untouched), then merge, sort
and annotate the cost series. -/
def afterCaches (inp : Inputs) (data : Snapshot) (st : CoordState)
    (rates' : RateMap) (entries' : List Entry) (cached' : List MKey)
    (log : List MKey) : CoordState × List MKey × Except PyErr Unit :=
  let currentRate := currentRateOf data.pricePerKwh
  let current := currentEntriesOf inp.today (data.currentMonthDaily.getD [])
  match inp.hourlyResult with
  | .error e => (cachesUpdated st rates' entries' cached', log, .error e)
  | .ok hourlyRows =>
    match hourlyRowsToEntries inp.today hourlyRows with
    | .error e => (cachesUpdated st rates' entries' cached', log, .error e)
    | .ok hourly =>
      let allEntries := pySort (entries' ++ current ++ hourly)
      ({ cachesUpdated st rates' entries' cached' with
          historical_entries := allEntries
          historical_cost_entries := costEntriesOf rates' currentRate allEntries },
       log, .ok ())

/-- Middle of `_fetch_historical` (coordinator.py:252-265): run the
per-new-month fetch loop; a transport error propagates with the partially
updated caches, otherwise the tail of the fetch runs. -/
def afterScan (inp : Inputs) (data : Snapshot) (st : CoordState)
    (rates' : RateMap) (newMonths : List MKey) :
    CoordState × List MKey × Except PyErr Unit :=
  match fetchNewMonths inp.fetchMonth st.cachedMonthEntries st.cachedMonths [] newMonths with
  | (entries', cached', log, .error e) =>
    (cachesUpdated st rates' entries' cached', log, .error e)
  | (entries', cached', log, .ok ()) =>
    afterCaches inp data st rates' entries' cached' log

/-- The whole `_fetch_historical` (coordinator.py:223-316): scan the yearly
rows (rates + new months), fetch the new months' daily tables, assemble
current-month and hourly entries, merge and sort into `historical_entries`,
and annotate the cost series. Returns the mutated state, the log of issued
per-month fetches, and the cycle outcome; on an error the mutations already
made persist and the `historical_entries` fields keep their previous
value. -/
def fetchHistorical (inp : Inputs) (data : Snapshot) (st : CoordState) :
    CoordState × List MKey × Except PyErr Unit :=
  match scanYearly st.cachedMonthRates st.cachedMonths (data.monthRows.getD []) with
  | (rates', .error e) => ({ st with cachedMonthRates := rates' }, [], .error e)
  | (rates', .ok newMonths) => afterScan inp data st rates' newMonths

/-- The exception policy of `_async_update_data` (coordinator.py:155-158):
`ConfigEntryAuthFailed` is re-raised as is, anything else is wrapped in
`UpdateFailed`. -/
def wrapErr : PyErr → PyErr
  | .authFailed => .authFailed
  | _ => .updateFailed

/-- The data dict accumulated by the first three sub-fetches of a cycle
whose login succeeded: each sub-fetch writes its fields on success and is
individually caught (logged, fields left absent) on failure
(coordinator.py:142-151). -/
def snapshotOf (inp : Inputs) : Snapshot :=
  ⟨ match inp.yearlyResult with
    | .ok (some rows) => some rows
    | _ => none,
    match inp.monthlyResult with
    | .ok (some rows) => some rows
    | _ => none,
    match inp.monthlyResult with
    | .ok (some rows) => some (todayDateOf rows)
    | _ => none,
    match inp.priceResult with
    | .ok (some p) => some p
    | _ => none ⟩

/-- The refresh cycle `_async_update_data` (coordinator.py:137-158): log in
(any login failure propagates, wrapped into `UpdateFailed` unless it is an
auth failure), then run the sub-fetches, each under its own
`except Exception` that logs and moves on, and return the accumulated data
dict together with the mutated coordinator state and the per-month fetch
log. -/
def updateData (inp : Inputs) (st : CoordState) :
    CoordState × List MKey × Except PyErr Snapshot :=
  match inp.loginResult with
  | .error e => (st, [], .error (wrapErr e))
  | .ok () =>
    let s := snapshotOf inp
    let r := fetchHistorical inp s st
    (r.1, r.2.1, .ok s)

/-- The cumulative energy-statistics builder `_build_energy_statistics` of
`src/__init__.py:39-47`: a running sum starting from 0, emitting one
(start, state, sum) record per entry in order. -/
def build_energy_statistics_aux (acc : ℚ) : List Entry → List (DT × ℚ × ℚ)
  | [] => []
  | (dt, kwh) :: rest =>
    (dt, kwh, acc + kwh) :: build_energy_statistics_aux (acc + kwh) rest

/-- Entry point of the statistics builder: the accumulator starts at 0 on
every call. -/
def build_energy_statistics (entries : List Entry) : List (DT × ℚ × ℚ) :=
  build_energy_statistics_aux 0 entries

/-! Helper lemmas shared by several claims. -/

theorem dictGet_dictSet (m : RateMap) (k k' : MKey) (v : ℚ) :
    dictGet (dictSet m k v) k' = if k = k' then some v else dictGet m k' := by
  by_cases h : k = k'
  · subst h
    simp [dictGet, dictSet, List.find?]
  · have hb : (k == k') = false := by
      simpa using h
    simp [dictGet, dictSet, List.find?, hb, h]

theorem mem_insertMonth (s : List MKey) (k k' : MKey) :
    k' ∈ insertMonth s k ↔ k' = k ∨ k' ∈ s := by
  unfold insertMonth
  by_cases h : k ∈ s
  · simp only [if_pos h]
    constructor
    · exact fun hm => Or.inr hm
    · rintro (rfl | hm)
      · exact h
      · exact hm
  · simp [if_neg h]

theorem self_mem_insertMonth (s : List MKey) (k : MKey) : k ∈ insertMonth s k :=
  (mem_insertMonth s k k).mpr (Or.inl rfl)

theorem rateStep_isOk (rates : RateMap) (y : Int) (m : Nat) (kwh cost : Option ℚ) :
    ∃ rates', rateStep rates y m kwh cost = .ok rates' := by
  cases kwh with
  | none => exact ⟨rates, rfl⟩
  | some kq =>
    cases cost with
    | none => exact ⟨rates, rfl⟩
    | some cq =>
      by_cases hz : kq = 0 ∨ cq = 0
      · exact ⟨rates, by simp [rateStep, hz]⟩
      · refine ⟨dictSet rates (y, m) (cq / kq), ?_⟩
        have hk : ¬ kq = 0 := fun h => hz (Or.inl h)
        have hc : ¬ cq = 0 := fun h => hz (Or.inr h)
        simp [rateStep, hz, pyDiv, hk, hc]

theorem resolve_month_empty : resolve_month "" = none := by decide

theorem build_energy_statistics_aux_length :
    ∀ (entries : List Entry) (acc : ℚ),
      (build_energy_statistics_aux acc entries).length = entries.length
  | [], _ => rfl
  | (dt, kwh) :: rest, acc => by
    simp [build_energy_statistics_aux,
      build_energy_statistics_aux_length rest (acc + kwh)]

theorem build_energy_statistics_aux_get :
    ∀ (entries : List Entry) (acc : ℚ) (i : ℕ) (hi : i < entries.length)
      (hi' : i < (build_energy_statistics_aux acc entries).length),
      (build_energy_statistics_aux acc entries).get ⟨i, hi'⟩ =
        ((entries.get ⟨i, hi⟩).1, (entries.get ⟨i, hi⟩).2,
          acc + ((entries.take (i + 1)).map (fun e => e.2)).sum)
  | [], _, i, hi, _ => absurd hi (by simp)
  | (dt, kwh) :: _, acc, 0, _, _ => by
    simp [build_energy_statistics_aux, List.get]
  | (dt, kwh) :: rest, acc, i + 1, hi, hi' => by
    have hr : i < rest.length := by simpa using Nat.lt_of_succ_lt_succ hi
    have hr' : i < (build_energy_statistics_aux (acc + kwh) rest).length := by
      rw [build_energy_statistics_aux_length]
      exact hr
    have ih := build_energy_statistics_aux_get rest (acc + kwh) i hr hr'
    simp only [List.get_eq_getElem] at ih ⊢
    simp [build_energy_statistics_aux, ih, add_assoc, List.map_take]

/-! Claim theorems. -/

def exToday : Date := ⟨2026, 2, 15⟩

def exHourlyRows : List (String × Option ℚ) :=
  [("23:00-00:00", some 1), ("09:00-10:00", some 2)]

/-- C1: the claim says a rolling-table row whose hour exceeds `now`'s
hour-of-day is assigned to yesterday's calendar date. The code
(coordinator.py:305) builds `datetime(today.year, today.month, today.day,
hour)` unconditionally, never consulting `now`'s hour: with `now` at 10:11
on 2026-02-15, the row labelled 23:00 (hour 23 > 10) is placed on
2026-02-15 — a future instant on the literal current day — instead of
2026-02-14 as the claim (and the spec's rolling-window rationale)
requires. This theorem evaluates the embedded code at that failing
input. -/
theorem hourly_rows_assigned_to_literal_today :
    hourlyRowsToEntries exToday exHourlyRows =
      .ok [((⟨exToday, 23⟩ : DT), 1), ((⟨exToday, 9⟩ : DT), 2)] := by decide

/-- C5: `to_energy_statistics` emits one record per entry in order; each
record's value is the entry's kWh and its cumulative sum is the sum of all
values up to and including that entry, with the accumulator starting at 0 on
every call; empty input yields empty output. -/
theorem energy_statistics_running_sum :
    (∀ entries : List Entry,
      (build_energy_statistics entries).length = entries.length) ∧
    build_energy_statistics [] = [] ∧
    (∀ (entries : List Entry) (i : ℕ) (hi : i < entries.length)
      (hi' : i < (build_energy_statistics entries).length),
      (build_energy_statistics entries).get ⟨i, hi'⟩ =
        ((entries.get ⟨i, hi⟩).1, (entries.get ⟨i, hi⟩).2,
          ((entries.take (i + 1)).map (fun e => e.2)).sum)) := by
  refine ⟨fun entries => build_energy_statistics_aux_length entries 0, rfl, ?_⟩
  intro entries i hi hi'
  have h := build_energy_statistics_aux_get entries 0 i hi hi'
  simpa [build_energy_statistics] using h

/-- C5 witness: the spec's 3-entry example [7.0, 9.0, 5.0] has running sums
[7.0, 16.0, 21.0]; the third record is read off the theorem. -/
theorem energy_statistics_running_sum_witness :
    (build_energy_statistics
        [((⟨⟨2025, 3, 1⟩, 0⟩ : DT), 7), ((⟨⟨2025, 3, 2⟩, 0⟩ : DT), 9),
         ((⟨⟨2025, 3, 3⟩, 0⟩ : DT), 5)]).get ⟨2, by decide⟩ =
      ((⟨⟨2025, 3, 3⟩, 0⟩ : DT), 5, 21) := by
  have h := energy_statistics_running_sum.2.2
    [((⟨⟨2025, 3, 1⟩, 0⟩ : DT), 7), ((⟨⟨2025, 3, 2⟩, 0⟩ : DT), 9),
     ((⟨⟨2025, 3, 3⟩, 0⟩ : DT), 5)] 2 (by decide) (by decide)
  rw [h]
  norm_num

/-- C6: every cost-series entry's rate is the RateCache value of the
entry's (year, month) when that key is present, otherwise the cycle's
current rate, which collapses to 0 when the price field was never observed
(absent key) or holds a falsy value. -/
theorem cost_series_rate_fallback (rates : RateMap) (p : Option (Option ℚ))
    (entries : List Entry) :
    (∀ dt kwh r, (dt, kwh, r) ∈ costEntriesOf rates (currentRateOf p) entries →
      (∀ q, dictGet rates (dt.date.year, dt.date.month) = some q → r = q) ∧
      (dictGet rates (dt.date.year, dt.date.month) = none →
        r = currentRateOf p)) ∧
    currentRateOf none = 0 ∧ currentRateOf (some none) = 0 := by
  refine ⟨?_, rfl, rfl⟩
  intro dt kwh r hmem
  rcases List.mem_map.mp hmem with ⟨e, _, heq⟩
  have h1 : e.1 = dt := congrArg (fun x => x.1) heq
  have h3 : (dictGet rates (e.1.date.year, e.1.date.month)).getD (currentRateOf p) = r :=
    congrArg (fun x => x.2.2) heq
  subst h1
  constructor
  · intro q hq
    rw [← h3, hq]
    rfl
  · intro hq
    rw [← h3, hq]
    rfl

def exRates : RateMap := [((2025, 2), 2)]

def exCostEntries : List Entry :=
  [((⟨⟨2025, 2, 15⟩, 0⟩ : DT), 5), ((⟨⟨2026, 2, 15⟩, 0⟩ : DT), 3)]

/-- C6 witness: with a RateCache holding (2025, 2) and a distinct current
rate, a 2025-02 entry resolves to the cached rate (shown by applying the
theorem at that entry). -/
theorem cost_series_rate_fallback_witness :
    (2 : ℚ) = 2 :=
  ((cost_series_rate_fallback exRates (some (some 3)) exCostEntries).1
    (⟨⟨2025, 2, 15⟩, 0⟩ : DT) 5 2 (by decide)).1 2 (by decide)

/-- C10: the rate-derivation division (coordinator.py:246) is reached only
when both totals are present and non-zero, so it can never raise
`ZeroDivisionError`: the step always succeeds, a present-but-zero total (or
an absent one) leaves the cache unchanged, and when both totals are present
and non-zero the step writes exactly total-cost / total-kWh. -/
theorem rate_derivation_division_guarded (rates : RateMap) (y : Int) (m : Nat)
    (kwh cost : Option ℚ) :
    (∃ rates', rateStep rates y m kwh cost = .ok rates') ∧
    rateStep rates y m (some 0) cost = .ok rates ∧
    rateStep rates y m kwh (some 0) = .ok rates ∧
    rateStep rates y m none cost = .ok rates ∧
    rateStep rates y m kwh none = .ok rates ∧
    (∀ kq cq, kwh = some kq → cost = some cq → kq ≠ 0 → cq ≠ 0 →
      rateStep rates y m kwh cost = .ok (dictSet rates (y, m) (cq / kq))) := by
  refine ⟨rateStep_isOk rates y m kwh cost, ?_, ?_, rfl, ?_, ?_⟩
  · cases cost with
    | none => rfl
    | some cq => simp [rateStep]
  · cases kwh with
    | none => rfl
    | some kq => simp [rateStep]
  · cases kwh with
    | none => rfl
    | some kq => rfl
  · intro kq cq hk hc hkz hcz
    subst hk
    subst hc
    simp [rateStep, pyDiv, hkz, hcz]

def exDailyRows : List (String × Option ℚ) :=
  [("2026-02-01", some 7), ("2026-02-02", some 10)]

def exLiteralToday : Date := ⟨2026, 2, 28⟩

/-- C8 counterexample: the claim says the excluded "today" entry is the last
row with a present value. On 2026-02-28, with daily rows for the 1st and 2nd
only, the monthly fetch's today pointer is "2026-02-02" (last row with
data), yet the code keeps that entry: the exclusion at coordinator.py:280
compares against the literal calendar day `datetime.now().date()` =
2026-02-28, which matches no row. -/
theorem current_entries_keep_last_present_row :
    todayDateOf exDailyRows = some "2026-02-02" ∧
    currentEntriesOf exLiteralToday exDailyRows =
      [((⟨⟨2026, 2, 1⟩, 0⟩ : DT), 7), ((⟨⟨2026, 2, 2⟩, 0⟩ : DT), 10)] := by
  decide

/-- C8 (amended): the current entries are exactly the current-month daily
rows with a nonempty date text, a present value and a parseable date
different from the literal calendar day `today`
(`datetime.now(TZ_STOCKHOLM).date()`), converted to local-midnight
timestamps; the monthly fetch's last-present-row pointer plays no part in
the exclusion. -/
theorem current_entries_characterization (today : Date)
    (daily : List (String × Option ℚ)) (dt : DT) (kwh : ℚ) :
    (dt, kwh) ∈ currentEntriesOf today daily ↔
      ∃ s : String, (s, some kwh) ∈ daily ∧ s ≠ "" ∧
        ∃ d, parseDate s.data = some d ∧ d ≠ today ∧ dt = ⟨d, 0⟩ := by
  unfold currentEntriesOf
  rw [List.mem_filterMap]
  constructor
  · rintro ⟨⟨s, kv⟩, he, hf⟩
    by_cases h1 : s = ""
    · simp [h1] at hf
    · rcases kv with _ | k
      · simp [h1] at hf
      · rcases h3 : parseDate s.data with _ | d
        · simp [h1, h3] at hf
        · by_cases h4 : d = today
          · simp [h1, h3, h4] at hf
          · simp only [h3] at hf
            rw [if_neg h1, if_neg h4] at hf
            obtain ⟨hdt, hkw⟩ := Prod.mk.injEq .. ▸ Option.some.inj hf
            refine ⟨s, ?_, h1, d, h3, h4, hdt.symm⟩
            rwa [← hkw]
  · rintro ⟨s, hs, hne, d, hd, hdne, rfl⟩
    refine ⟨(s, some kwh), hs, ?_⟩
    simp [hne, hd, hdne]

/-- C8 amended witness: at the concrete counterexample input, the entry for
2026-02-02 is characterized as present because its date differs from the
literal day 2026-02-28. -/
theorem current_entries_characterization_witness :
    ((⟨⟨2026, 2, 2⟩, 0⟩ : DT), (10 : ℚ)) ∈ currentEntriesOf exLiteralToday exDailyRows :=
  (current_entries_characterization exLiteralToday exDailyRows ⟨⟨2026, 2, 2⟩, 0⟩ 10).mpr
    ⟨"2026-02-02", by decide, by decide, ⟨2026, 2, 2⟩, by decide, by decide, rfl⟩

def exTwoDigitYear : String := "januari 25"

/-- C9 counterexample: the claim requires the second token to be a 4-digit
year, with absence on any mismatch. Python `int` accepts any decimal
integer, so the two-digit "januari 25" resolves to (25, 1) instead of being
absent. -/
theorem resolve_month_accepts_short_year :
    resolve_month exTwoDigitYear = some (25, 1) := by decide

theorem monthsGet_eq_some (t : String) (m : Nat) :
    monthsGet t = some m ↔ (t, m) ∈ SWEDISH_MONTHS := by
  constructor
  · intro h
    unfold monthsGet at h
    rcases Option.map_eq_some'.mp h with ⟨p, hfind, hsnd⟩
    have hmem := List.mem_of_find?_eq_some hfind
    have hkey := List.find?_some hfind
    have h1 : p.1 = t := by simpa using hkey
    have : p = (t, m) := by
      cases p
      simp only at h1 hsnd
      rw [h1, hsnd]
    rwa [this] at hmem
  · intro h
    fin_cases h <;> rfl

/-- C9 (amended): `resolve_month` returns (year, month) exactly when its
input lowercases and splits into exactly two whitespace-separated tokens
whose first is one of the 12 Swedish month names (any letter case) and
whose second is any string Python `int` accepts — an optionally signed
nonempty digit string of any length, not only 4-digit years; unknown month
words, wrong token counts and non-numeric years yield absence. -/
theorem resolve_month_characterization (name : String) (y : Int) (m : Nat) :
    resolve_month name = some (y, m) ↔
      ∃ t1 t2 : String,
        (tokens (name.data.map lowerChar)).map String.mk = [t1, t2] ∧
        (t1, m) ∈ SWEDISH_MONTHS ∧ pyInt? t2.data = some y := by
  unfold resolve_month
  cases htk : (tokens (name.data.map lowerChar)).map String.mk with
  | nil => simp
  | cons a tl =>
    cases tl with
    | nil => simp
    | cons b tl2 =>
      cases tl2 with
      | cons c tl3 => simp
      | nil =>
        cases hm : monthsGet a with
        | none =>
          simp only [hm]
          constructor
          · intro h
            cases h
          · rintro ⟨t1, t2, htt, hmem, _⟩
            have h1 : t1 = a := by
              have := List.cons.inj htt
              exact this.1.symm
            rw [h1] at hmem
            rw [(monthsGet_eq_some a m).mpr hmem] at hm
            cases hm
        | some mv =>
          simp only [hm]
          cases hy : pyInt? b.data with
          | none =>
            simp only [hy]
            constructor
            · intro h
              cases h
            · rintro ⟨t1, t2, htt, _, hint⟩
              obtain ⟨h1, h2⟩ := List.cons.inj htt
              obtain ⟨h2, _⟩ := List.cons.inj h2
              rw [h2.symm] at hint
              rw [hint] at hy
              cases hy
          | some yv =>
            simp only [hy, Option.some.injEq, Prod.mk.injEq]
            constructor
            · rintro ⟨hyy, hmm⟩
              refine ⟨a, b, rfl, ?_, ?_⟩
              · rw [← hmm]
                exact (monthsGet_eq_some a mv).mp hm
              · rw [hy, hyy]
            · rintro ⟨t1, t2, htt, hmem, hint⟩
              obtain ⟨h1, h2⟩ := List.cons.inj htt
              obtain ⟨h2, _⟩ := List.cons.inj h2
              constructor
              · rw [h2.symm] at hint
                rw [hint] at hy
                exact (Option.some.inj hy).symm
              · rw [h1.symm] at hmem
                have := (monthsGet_eq_some a m).mpr hmem
                rw [this] at hm
                exact (Option.some.inj hm).symm

/-- Spec-side view of one yearly row's rate derivation: the (key, rate)
pair the row writes when its label resolves and both totals are present and
non-zero, `none` otherwise. -/
def rowRate? (row : MonthRow) : Option (MKey × ℚ) :=
  match resolve_month row.name with
  | some (y, m) =>
    match row.kwh, row.cost with
    | some kq, some cq => if kq = 0 ∨ cq = 0 then none else some ((y, m), cq / kq)
    | _, _ => none
  | none => none

/-- Value held by key `k` after applying the rows' derivations in order to
an initial value: each writing row for `k` overwrites, every other row
leaves the value alone. -/
def rateAfter (init : Option ℚ) (k : MKey) : List MonthRow → Option ℚ
  | [] => init
  | row :: rest =>
    rateAfter
      (match rowRate? row with
       | some (k', v) => if k' = k then some v else init
       | none => init) k rest

/-- Effect of one rate step on a single key's lookup value. -/
def stepVal (prev : Option ℚ) (y : Int) (m : Nat) (kwh cost : Option ℚ)
    (k : MKey) : Option ℚ :=
  match kwh, cost with
  | some kq, some cq =>
    if kq = 0 ∨ cq = 0 then prev
    else if (y, m) = k then some (cq / kq) else prev
  | _, _ => prev

theorem rateStep_dictGet (rates : RateMap) (y : Int) (m : Nat)
    (kwh cost : Option ℚ) (rates' : RateMap) (k : MKey)
    (h : rateStep rates y m kwh cost = .ok rates') :
    dictGet rates' k = stepVal (dictGet rates k) y m kwh cost k := by
  cases kwh with
  | none =>
    injection h with h'
    rw [← h']
    rfl
  | some kq =>
    cases cost with
    | none =>
      injection h with h'
      rw [← h']
      rfl
    | some cq =>
      by_cases hz : kq = 0 ∨ cq = 0
      · rw [rateStep, if_pos hz] at h
        injection h with h'
        rw [← h']
        simp [stepVal, hz]
      · have hk : ¬ kq = 0 := fun hh => hz (Or.inl hh)
        rw [rateStep, if_neg hz] at h
        rw [pyDiv, if_neg hk] at h
        injection h with h'
        rw [← h']
        rw [dictGet_dictSet]
        simp [stepVal, hz]

theorem rateAfter_cons_none (init : Option ℚ) (k : MKey) (row : MonthRow)
    (rest : List MonthRow) (h : rowRate? row = none) :
    rateAfter init k (row :: rest) = rateAfter init k rest := by
  rw [rateAfter, h]

theorem rateAfter_cons_resolved (init : Option ℚ) (k : MKey) (row : MonthRow)
    (rest : List MonthRow) (y : Int) (m : Nat)
    (hres : resolve_month row.name = some (y, m)) :
    rateAfter init k (row :: rest) =
      rateAfter (stepVal init y m row.kwh row.cost k) k rest := by
  rw [rateAfter]
  congr 1
  cases hk : row.kwh with
  | none => simp [rowRate?, hres, hk, stepVal]
  | some kq =>
    cases hc : row.cost with
    | none => simp [rowRate?, hres, hk, hc, stepVal]
    | some cq =>
      by_cases hz : kq = 0 ∨ cq = 0
      · simp [rowRate?, hres, hk, hc, stepVal, hz]
      · simp [rowRate?, hres, hk, hc, stepVal, hz]

theorem scanYearly_cons_resolved (rates : RateMap) (cached : List MKey)
    (row : MonthRow) (rest : List MonthRow) (y : Int) (m : Nat)
    (hname : ¬ row.name = "") (hres : resolve_month row.name = some (y, m)) :
    scanYearly rates cached (row :: rest) =
      match rateStep rates y m row.kwh row.cost with
      | .error e => (rates, .error e)
      | .ok rates' =>
        if (y, m) ∈ cached then scanYearly rates' cached rest
        else if 1 ≤ y ∧ y ≤ 9999 then
          match scanYearly rates' cached rest with
          | (ratesF, .ok ms) => (ratesF, .ok ((y, m) :: ms))
          | (ratesF, .error e) => (ratesF, .error e)
        else (rates', .error .valueError) := by
  rw [scanYearly, if_neg hname, hres]

theorem scanYearly_cons_ok (rates : RateMap) (cached : List MKey)
    (row : MonthRow) (rest : List MonthRow) (y : Int) (m : Nat)
    (hname : ¬ row.name = "") (hres : resolve_month row.name = some (y, m))
    (rates' : RateMap)
    (hstep : rateStep rates y m row.kwh row.cost = .ok rates') :
    scanYearly rates cached (row :: rest) =
      if (y, m) ∈ cached then scanYearly rates' cached rest
      else if 1 ≤ y ∧ y ≤ 9999 then
        match scanYearly rates' cached rest with
        | (ratesF, .ok ms) => (ratesF, .ok ((y, m) :: ms))
        | (ratesF, .error e) => (ratesF, .error e)
      else (rates', .error .valueError) := by
  rw [scanYearly_cons_resolved rates cached row rest y m hname hres, hstep]

def exZeroRow : MonthRow := ⟨"februari 2025", some 0, some 100⟩

/-- C7 counterexample: the claim says any row with both totals present gets
a RateCache entry. The row "februari 2025" with total-kWh 0.0 (present) and
total-cost 100.0 (present) resolves, yet the truthiness guard
`if kwh_total and cost_total` (coordinator.py:245) skips it: the cache holds
no entry for (2025, 2). -/
theorem rate_not_set_for_present_zero_total :
    exZeroRow.kwh = some 0 ∧ exZeroRow.cost = some 100 ∧
    resolve_month exZeroRow.name = some (2025, 2) ∧
    dictGet (scanYearly [] [] [exZeroRow]).1 (2025, 2) = none := by decide

/-- C7 (amended): for every yearly row whose label resolves and whose totals
are both present and non-zero (Python truthiness), the rate cache entry of
the resolved (year, month) is set to total-cost / total-kWh, later rows
overwriting earlier derivations for the same key; rows with an absent or
zero total leave the key untouched. After a successful scan, every key's
value is the sequential-overwrite result over the rows, starting from its
previous value. -/
theorem rate_cache_last_write_wins :
    ∀ (rows : List MonthRow) (rates : RateMap) (cached : List MKey)
      (k : MKey) (ms : List MKey),
      (scanYearly rates cached rows).2 = .ok ms →
      dictGet (scanYearly rates cached rows).1 k =
        rateAfter (dictGet rates k) k rows := by
  intro rows
  induction rows with
  | nil =>
    intro rates cached k ms _
    rfl
  | cons row rest ih =>
    intro rates cached k ms h
    by_cases hname : row.name = ""
    · have hres : rowRate? row = none := by
        rw [rowRate?, hname, resolve_month_empty]
      rw [scanYearly, if_pos hname] at h ⊢
      rw [rateAfter_cons_none _ _ _ _ hres]
      exact ih rates cached k ms h
    · cases hres : resolve_month row.name with
      | none =>
        have hrr : rowRate? row = none := by
          rw [rowRate?, hres]
        rw [scanYearly, if_neg hname, hres] at h ⊢
        rw [rateAfter_cons_none _ _ _ _ hrr]
        exact ih rates cached k ms h
      | some ym =>
        obtain ⟨y, m⟩ := ym
        obtain ⟨rates', hstep⟩ := rateStep_isOk rates y m row.kwh row.cost
        rw [scanYearly_cons_ok rates cached row rest y m hname hres rates' hstep] at h ⊢
        rw [rateAfter_cons_resolved _ _ _ _ y m hres,
          ← rateStep_dictGet rates y m row.kwh row.cost rates' k hstep]
        by_cases hin : (y, m) ∈ cached
        · rw [if_pos hin] at h ⊢
          exact ih rates' cached k ms h
        · rw [if_neg hin] at h ⊢
          by_cases hyr : 1 ≤ y ∧ y ≤ 9999
          · rw [if_pos hyr] at h ⊢
            cases hrec : scanYearly rates' cached rest with
            | mk rF r2 =>
              rw [hrec] at h
              cases r2 with
              | ok ms' =>
                have hinner : (scanYearly rates' cached rest).2 = .ok ms' := by
                  rw [hrec]
                have hv := ih rates' cached k ms' hinner
                rw [hrec] at hv
                exact hv
              | error e =>
                exact absurd h (fun hh => Except.noConfusion hh)
          · rw [if_neg hyr] at h
            exact absurd h (fun hh => Except.noConfusion hh)

def exC7Rows : List MonthRow := [⟨"februari 2025", some 1, some 3⟩]

/-- C7 witness: applying the last-write-wins theorem to a concrete
successful scan of one resolving, truthy row. -/
theorem rate_cache_last_write_wins_witness :
    dictGet (scanYearly [] [] exC7Rows).1 (2025, 2) =
      rateAfter (dictGet [] (2025, 2)) (2025, 2) exC7Rows :=
  rate_cache_last_write_wins exC7Rows [] [] (2025, 2) [(2025, 2)] (by decide)

/-- C10 witness: a concrete zero-kWh row writes nothing, and the concrete
row (kwh 213, cost 191) writes rate 191 / 213. -/
theorem rate_derivation_division_guarded_witness :
    rateStep [] 2025 2 (some 0) (some 100) = .ok [] ∧
    rateStep [] 2025 2 (some 213) (some 191) =
      .ok (dictSet [] (2025, 2) (191 / 213)) :=
  ⟨(rate_derivation_division_guarded [] 2025 2 (some 0) (some 100)).2.1,
   (rate_derivation_division_guarded [] 2025 2 (some 213) (some 191)).2.2.2.2.2
     213 191 rfl rfl (by decide) (by decide)⟩

def exDupInputs : Inputs :=
  ⟨.ok (), .ok (some [⟨"februari 2026", none, none⟩]),
   .ok (some [("2026-02-01", some 7)]), .ok none, .ok [],
   fun k => if k = (2026, 2) then .ok [("2026-02-01", 7)] else .error .transport,
   ⟨2026, 2, 15⟩⟩

/-- C2 counterexample: when the current month itself appears in the yearly
table, its daily breakdown is fetched into the persistent cache while the
same days also arrive as current-month entries; the merge concatenates and
sorts without deduplicating (spec §9 flags exactly this), so after the
cycle `historical_entries` holds the 2026-02-01 midnight timestamp
twice. -/
theorem historical_entries_duplicate_timestamp :
    (updateData exDupInputs initState).1.historical_entries =
      [((⟨⟨2026, 2, 1⟩, 0⟩ : DT), 7), ((⟨⟨2026, 2, 1⟩, 0⟩ : DT), 7)] ∧
    ¬ ((updateData exDupInputs initState).1.historical_entries.map
        (fun e => e.1)).Nodup := by
  decide

theorem afterScan_eq_error (inp : Inputs) (data : Snapshot) (st : CoordState)
    (rates' : RateMap) (newMonths : List MKey) (entries' : List Entry)
    (cached' : List MKey) (log : List MKey) (e : PyErr)
    (hnm : fetchNewMonths inp.fetchMonth st.cachedMonthEntries st.cachedMonths [] newMonths =
      (entries', cached', log, .error e)) :
    afterScan inp data st rates' newMonths =
      (cachesUpdated st rates' entries' cached', log, .error e) := by
  unfold afterScan
  rw [hnm]

theorem afterScan_eq_ok (inp : Inputs) (data : Snapshot) (st : CoordState)
    (rates' : RateMap) (newMonths : List MKey) (entries' : List Entry)
    (cached' : List MKey) (log : List MKey)
    (hnm : fetchNewMonths inp.fetchMonth st.cachedMonthEntries st.cachedMonths [] newMonths =
      (entries', cached', log, .ok ())) :
    afterScan inp data st rates' newMonths =
      afterCaches inp data st rates' entries' cached' log := by
  unfold afterScan
  rw [hnm]

theorem afterCaches_sorted (inp : Inputs) (data : Snapshot) (st : CoordState)
    (rates' : RateMap) (entries' : List Entry) (cached' : List MKey)
    (log : List MKey) (h : st.historical_entries.Sorted entryLe) :
    (afterCaches inp data st rates' entries' cached' log).1.historical_entries.Sorted entryLe := by
  unfold afterCaches
  split
  · exact h
  · split
    · exact h
    · exact List.sorted_insertionSort entryLe _

theorem afterScan_sorted (inp : Inputs) (data : Snapshot) (st : CoordState)
    (rates' : RateMap) (newMonths : List MKey)
    (h : st.historical_entries.Sorted entryLe) :
    (afterScan inp data st rates' newMonths).1.historical_entries.Sorted entryLe := by
  cases hnm : fetchNewMonths inp.fetchMonth st.cachedMonthEntries st.cachedMonths [] newMonths with
  | mk entries' r3 =>
    obtain ⟨cached', log, r⟩ := r3
    cases r with
    | error e =>
      rw [afterScan_eq_error inp data st rates' newMonths entries' cached' log e hnm]
      exact h
    | ok u =>
      cases u
      rw [afterScan_eq_ok inp data st rates' newMonths entries' cached' log hnm]
      exact afterCaches_sorted inp data st rates' entries' cached' log h

theorem fetchHistorical_sorted (inp : Inputs) (data : Snapshot)
    (st : CoordState) (h : st.historical_entries.Sorted entryLe) :
    (fetchHistorical inp data st).1.historical_entries.Sorted entryLe := by
  unfold fetchHistorical
  cases hscan : scanYearly st.cachedMonthRates st.cachedMonths (data.monthRows.getD []) with
  | mk rates' res =>
    cases res with
    | error e => exact h
    | ok newMonths => exact afterScan_sorted inp data st rates' newMonths h

/-- C2 (amended): after every refresh cycle the historical series is sorted
ascending by timestamp (refresh preserves sortedness: a cycle either leaves
the series untouched or replaces it with a freshly sorted merge); duplicate
timestamps, however, may remain, since the merge concatenates the cached,
current and hourly entries and sorts without deduplicating. -/
theorem historical_entries_sorted (inp : Inputs) (st : CoordState)
    (h : st.historical_entries.Sorted entryLe) :
    (updateData inp st).1.historical_entries.Sorted entryLe := by
  unfold updateData
  cases hl : inp.loginResult with
  | error e => exact h
  | ok u =>
    cases u
    exact fetchHistorical_sorted inp (snapshotOf inp) st h

/-- C2 witness: a freshly constructed coordinator's series is sorted (it is
empty), and so is the series after the duplicate-producing cycle. -/
theorem historical_entries_sorted_witness :
    ((updateData exDupInputs initState).1.historical_entries).Sorted entryLe :=
  historical_entries_sorted exDupInputs initState List.sorted_nil

theorem fetchNewMonths_cached_monotone :
    ∀ (ms : List MKey) (f : MKey → Except PyErr (List (String × ℚ)))
      (entries : List Entry) (cached : List MKey) (log : List MKey) (k : MKey),
      k ∈ cached → k ∈ (fetchNewMonths f entries cached log ms).2.1
  | [], _, _, _, _, _, hk => hk
  | m0 :: rest, f, entries, cached, log, k, hk => by
    rw [fetchNewMonths]
    cases hf : f m0 with
    | error e => exact hk
    | ok rows =>
      exact fetchNewMonths_cached_monotone rest f _ _ _ k
        ((mem_insertMonth cached m0 k).mpr (Or.inr hk))

theorem fetchNewMonths_log_mem :
    ∀ (ms : List MKey) (f : MKey → Except PyErr (List (String × ℚ)))
      (entries : List Entry) (cached : List MKey) (log : List MKey) (k : MKey),
      k ∈ (fetchNewMonths f entries cached log ms).2.2.1 → k ∈ log ∨ k ∈ ms
  | [], _, _, _, _, k => fun hk => Or.inl hk
  | m0 :: rest, f, entries, cached, log, k => by
    rw [fetchNewMonths]
    cases hf : f m0 with
    | error e =>
      intro hk
      rcases List.mem_append.mp hk with h | h
      · exact Or.inl h
      · have hem : k = m0 := by simpa using h
        exact Or.inr (hem ▸ List.mem_cons_self m0 rest)
    | ok rows =>
      intro hk
      rcases fetchNewMonths_log_mem rest f _ _ _ k hk with h | h
      · rcases List.mem_append.mp h with h' | h'
        · exact Or.inl h'
        · have hem : k = m0 := by simpa using h'
          exact Or.inr (hem ▸ List.mem_cons_self m0 rest)
      · exact Or.inr (List.mem_cons_of_mem _ h)

theorem fetchNewMonths_ok_all_cached :
    ∀ (ms : List MKey) (f : MKey → Except PyErr (List (String × ℚ)))
      (entries : List Entry) (cached : List MKey) (log : List MKey),
      (fetchNewMonths f entries cached log ms).2.2.2 = .ok () →
      ∀ k, k ∈ ms → k ∈ (fetchNewMonths f entries cached log ms).2.1
  | [], _, _, _, _ => fun _ k hk => absurd hk (List.not_mem_nil k)
  | m0 :: rest, f, entries, cached, log => by
    rw [fetchNewMonths]
    cases hf : f m0 with
    | error e =>
      intro hok
      exact absurd hok (fun hh => Except.noConfusion hh)
    | ok rows =>
      intro hok k hk
      rcases List.mem_cons.mp hk with rfl | htail
      · exact fetchNewMonths_cached_monotone rest f _ _ _ k
          (self_mem_insertMonth cached k)
      · exact fetchNewMonths_ok_all_cached rest f _ _ _ hok k htail

theorem scanYearly_ok_not_cached :
    ∀ (rows : List MonthRow) (rates : RateMap) (cached : List MKey)
      (ms : List MKey),
      (scanYearly rates cached rows).2 = .ok ms → ∀ k, k ∈ ms → k ∉ cached := by
  intro rows
  induction rows with
  | nil =>
    intro rates cached ms h k hk
    have hms : ([] : List MKey) = ms := Except.ok.inj h
    rw [← hms] at hk
    exact absurd hk (List.not_mem_nil k)
  | cons row rest ih =>
    intro rates cached ms h k hk
    by_cases hname : row.name = ""
    · rw [scanYearly, if_pos hname] at h
      exact ih rates cached ms h k hk
    · cases hres : resolve_month row.name with
      | none =>
        rw [scanYearly, if_neg hname, hres] at h
        exact ih rates cached ms h k hk
      | some ym =>
        obtain ⟨y, m⟩ := ym
        obtain ⟨rates', hstep⟩ := rateStep_isOk rates y m row.kwh row.cost
        rw [scanYearly_cons_ok rates cached row rest y m hname hres rates' hstep] at h
        by_cases hin : (y, m) ∈ cached
        · rw [if_pos hin] at h
          exact ih rates' cached ms h k hk
        · rw [if_neg hin] at h
          by_cases hyr : 1 ≤ y ∧ y ≤ 9999
          · rw [if_pos hyr] at h
            cases hrec : scanYearly rates' cached rest with
            | mk rF r2 =>
              rw [hrec] at h
              cases r2 with
              | ok ms' =>
                have hms : (y, m) :: ms' = ms := Except.ok.inj h
                rw [← hms] at hk
                rcases List.mem_cons.mp hk with rfl | htail
                · exact hin
                · exact ih rates' cached ms' (by rw [hrec]) k htail
              | error e =>
                exact absurd h (fun hh => Except.noConfusion hh)
          · rw [if_neg hyr] at h
            exact absurd h (fun hh => Except.noConfusion hh)

theorem scanYearly_ok_resolved_mem :
    ∀ (rows : List MonthRow) (rates : RateMap) (cached : List MKey)
      (ms : List MKey),
      (scanYearly rates cached rows).2 = .ok ms →
      ∀ row, row ∈ rows → ∀ y m, resolve_month row.name = some (y, m) →
        (y, m) ∈ ms ∨ (y, m) ∈ cached := by
  intro rows
  induction rows with
  | nil =>
    intro rates cached ms _ row hrow
    exact absurd hrow (List.not_mem_nil row)
  | cons row0 rest ih =>
    intro rates cached ms h row hrow y m hres
    rcases List.mem_cons.mp hrow with rfl | htail
    · have hname : ¬ row.name = "" := by
        intro hn
        rw [hn, resolve_month_empty] at hres
        cases hres
      obtain ⟨rates', hstep⟩ := rateStep_isOk rates y m row.kwh row.cost
      rw [scanYearly_cons_ok rates cached row rest y m hname hres rates' hstep] at h
      by_cases hin : (y, m) ∈ cached
      · exact Or.inr hin
      · rw [if_neg hin] at h
        by_cases hyr : 1 ≤ y ∧ y ≤ 9999
        · rw [if_pos hyr] at h
          cases hrec : scanYearly rates' cached rest with
          | mk rF r2 =>
            rw [hrec] at h
            cases r2 with
            | ok ms' =>
              have hms : (y, m) :: ms' = ms := Except.ok.inj h
              rw [← hms]
              exact Or.inl (List.mem_cons_self _ _)
            | error e =>
              exact absurd h (fun hh => Except.noConfusion hh)
        · rw [if_neg hyr] at h
          exact absurd h (fun hh => Except.noConfusion hh)
    · by_cases hname : row0.name = ""
      · rw [scanYearly, if_pos hname] at h
        exact ih rates cached ms h row htail y m hres
      · cases hres0 : resolve_month row0.name with
        | none =>
          rw [scanYearly, if_neg hname, hres0] at h
          exact ih rates cached ms h row htail y m hres
        | some ym0 =>
          obtain ⟨y0, m0⟩ := ym0
          obtain ⟨rates', hstep⟩ := rateStep_isOk rates y0 m0 row0.kwh row0.cost
          rw [scanYearly_cons_ok rates cached row0 rest y0 m0 hname hres0 rates' hstep] at h
          by_cases hin : (y0, m0) ∈ cached
          · rw [if_pos hin] at h
            exact ih rates' cached ms h row htail y m hres
          · rw [if_neg hin] at h
            by_cases hyr : 1 ≤ y0 ∧ y0 ≤ 9999
            · rw [if_pos hyr] at h
              cases hrec : scanYearly rates' cached rest with
              | mk rF r2 =>
                rw [hrec] at h
                cases r2 with
                | ok ms' =>
                  have hms : (y0, m0) :: ms' = ms := Except.ok.inj h
                  rcases ih rates' cached ms' (by rw [hrec]) row htail y m hres with hl | hr
                  · rw [← hms]
                    exact Or.inl (List.mem_cons_of_mem _ hl)
                  · exact Or.inr hr
                | error e =>
                  exact absurd h (fun hh => Except.noConfusion hh)
            · rw [if_neg hyr] at h
              exact absurd h (fun hh => Except.noConfusion hh)

theorem scanYearly_all_cached :
    ∀ (rows : List MonthRow) (rates : RateMap) (cached : List MKey),
      (∀ row, row ∈ rows → ∀ y m, resolve_month row.name = some (y, m) →
        (y, m) ∈ cached) →
      (scanYearly rates cached rows).2 = .ok [] := by
  intro rows
  induction rows with
  | nil =>
    intro rates cached _
    rfl
  | cons row rest ih =>
    intro rates cached hall
    have htail : ∀ row', row' ∈ rest → ∀ y m,
        resolve_month row'.name = some (y, m) → (y, m) ∈ cached :=
      fun row' hr => hall row' (List.mem_cons_of_mem _ hr)
    by_cases hname : row.name = ""
    · rw [scanYearly, if_pos hname]
      exact ih rates cached htail
    · cases hres : resolve_month row.name with
      | none =>
        rw [scanYearly, if_neg hname, hres]
        exact ih rates cached htail
      | some ym =>
        obtain ⟨y, m⟩ := ym
        obtain ⟨rates', hstep⟩ := rateStep_isOk rates y m row.kwh row.cost
        rw [scanYearly_cons_ok rates cached row rest y m hname hres rates' hstep]
        rw [if_pos (hall row (List.mem_cons_self _ _) y m hres)]
        exact ih rates' cached htail

theorem afterCaches_cachedMonths (inp : Inputs) (data : Snapshot)
    (st : CoordState) (rates' : RateMap) (entries' : List Entry)
    (cached' : List MKey) (log : List MKey) :
    (afterCaches inp data st rates' entries' cached' log).1.cachedMonths = cached' := by
  unfold afterCaches
  split
  · rfl
  · split
    · rfl
    · rfl

theorem afterCaches_log (inp : Inputs) (data : Snapshot)
    (st : CoordState) (rates' : RateMap) (entries' : List Entry)
    (cached' : List MKey) (log : List MKey) :
    (afterCaches inp data st rates' entries' cached' log).2.1 = log := by
  unfold afterCaches
  split
  · rfl
  · split
    · rfl
    · rfl

theorem afterScan_cachedMonths (inp : Inputs) (data : Snapshot)
    (st : CoordState) (rates' : RateMap) (newMonths : List MKey) :
    (afterScan inp data st rates' newMonths).1.cachedMonths =
      (fetchNewMonths inp.fetchMonth st.cachedMonthEntries st.cachedMonths [] newMonths).2.1 := by
  cases hnm : fetchNewMonths inp.fetchMonth st.cachedMonthEntries st.cachedMonths [] newMonths with
  | mk entries' r3 =>
    obtain ⟨cached', log, r⟩ := r3
    cases r with
    | error e =>
      rw [afterScan_eq_error inp data st rates' newMonths entries' cached' log e hnm]
      rfl
    | ok u =>
      cases u
      rw [afterScan_eq_ok inp data st rates' newMonths entries' cached' log hnm]
      rw [afterCaches_cachedMonths]

theorem afterScan_log (inp : Inputs) (data : Snapshot)
    (st : CoordState) (rates' : RateMap) (newMonths : List MKey) :
    (afterScan inp data st rates' newMonths).2.1 =
      (fetchNewMonths inp.fetchMonth st.cachedMonthEntries st.cachedMonths [] newMonths).2.2.1 := by
  cases hnm : fetchNewMonths inp.fetchMonth st.cachedMonthEntries st.cachedMonths [] newMonths with
  | mk entries' r3 =>
    obtain ⟨cached', log, r⟩ := r3
    cases r with
    | error e =>
      rw [afterScan_eq_error inp data st rates' newMonths entries' cached' log e hnm]
    | ok u =>
      cases u
      rw [afterScan_eq_ok inp data st rates' newMonths entries' cached' log hnm]
      rw [afterCaches_log]

theorem afterScan_ok_nm (inp : Inputs) (data : Snapshot)
    (st : CoordState) (rates' : RateMap) (newMonths : List MKey)
    (h : (afterScan inp data st rates' newMonths).2.2 = .ok ()) :
    (fetchNewMonths inp.fetchMonth st.cachedMonthEntries st.cachedMonths [] newMonths).2.2.2 = .ok () := by
  cases hnm : fetchNewMonths inp.fetchMonth st.cachedMonthEntries st.cachedMonths [] newMonths with
  | mk entries' r3 =>
    obtain ⟨cached', log, r⟩ := r3
    cases r with
    | error e =>
      rw [afterScan_eq_error inp data st rates' newMonths entries' cached' log e hnm] at h
      exact absurd h (fun hh => Except.noConfusion hh)
    | ok u =>
      cases u
      rfl

theorem fetchHistorical_cachedMonths_monotone (inp : Inputs) (data : Snapshot)
    (st : CoordState) (k : MKey) (hk : k ∈ st.cachedMonths) :
    k ∈ (fetchHistorical inp data st).1.cachedMonths := by
  unfold fetchHistorical
  cases hscan : scanYearly st.cachedMonthRates st.cachedMonths (data.monthRows.getD []) with
  | mk rates' res =>
    cases res with
    | error e => exact hk
    | ok newMonths =>
      rw [afterScan_cachedMonths]
      exact fetchNewMonths_cached_monotone newMonths inp.fetchMonth
        st.cachedMonthEntries st.cachedMonths [] k hk

theorem fetchHistorical_log_not_cached (inp : Inputs) (data : Snapshot)
    (st : CoordState) (k : MKey)
    (hk : k ∈ (fetchHistorical inp data st).2.1) : k ∉ st.cachedMonths := by
  unfold fetchHistorical at hk
  cases hscan : scanYearly st.cachedMonthRates st.cachedMonths (data.monthRows.getD []) with
  | mk rates' res =>
    rw [hscan] at hk
    cases res with
    | error e => exact absurd hk (List.not_mem_nil k)
    | ok newMonths =>
      rw [afterScan_log] at hk
      rcases fetchNewMonths_log_mem newMonths inp.fetchMonth
        st.cachedMonthEntries st.cachedMonths [] k hk with habs | hmem
      · exact absurd habs (List.not_mem_nil k)
      · exact scanYearly_ok_not_cached (data.monthRows.getD [])
          st.cachedMonthRates st.cachedMonths newMonths (by rw [hscan]) k hmem

theorem fetchHistorical_ok_resolved_cached (inp : Inputs) (data : Snapshot)
    (st : CoordState)
    (hok : (fetchHistorical inp data st).2.2 = .ok ()) :
    ∀ row, row ∈ data.monthRows.getD [] → ∀ y m,
      resolve_month row.name = some (y, m) →
      (y, m) ∈ (fetchHistorical inp data st).1.cachedMonths := by
  intro row hrow y m hres
  unfold fetchHistorical at hok ⊢
  cases hscan : scanYearly st.cachedMonthRates st.cachedMonths (data.monthRows.getD []) with
  | mk rates' res =>
    rw [hscan] at hok
    cases res with
    | error e => exact absurd hok (fun hh => Except.noConfusion hh)
    | ok newMonths =>
      have hnmok := afterScan_ok_nm inp data st rates' newMonths hok
      have hcov : (y, m) ∈ newMonths ∨ (y, m) ∈ st.cachedMonths :=
        scanYearly_ok_resolved_mem (data.monthRows.getD [])
          st.cachedMonthRates st.cachedMonths newMonths (by rw [hscan])
          row hrow y m hres
      rw [afterScan_cachedMonths]
      rcases hcov with hmem | hold
      · exact fetchNewMonths_ok_all_cached newMonths inp.fetchMonth
          st.cachedMonthEntries st.cachedMonths [] hnmok (y, m) hmem
      · exact fetchNewMonths_cached_monotone newMonths inp.fetchMonth
          st.cachedMonthEntries st.cachedMonths [] (y, m) hold

theorem fetchHistorical_log_nil_of_cached (inp : Inputs) (data : Snapshot)
    (st : CoordState)
    (hall : ∀ row, row ∈ data.monthRows.getD [] → ∀ y m,
      resolve_month row.name = some (y, m) → (y, m) ∈ st.cachedMonths) :
    (fetchHistorical inp data st).2.1 = [] := by
  have hscan2 : (scanYearly st.cachedMonthRates st.cachedMonths
      (data.monthRows.getD [])).2 = .ok [] :=
    scanYearly_all_cached (data.monthRows.getD []) st.cachedMonthRates
      st.cachedMonths hall
  unfold fetchHistorical
  cases hscan : scanYearly st.cachedMonthRates st.cachedMonths (data.monthRows.getD []) with
  | mk rates' res =>
    rw [hscan] at hscan2
    have hres : res = .ok [] := hscan2
    subst hres
    rw [afterScan_log]
    rfl

/-- C3: the month cache only grows across refresh cycles, a per-month
daily-table fetch is issued only for a (year, month) not already cached at
the start of the run, and after a successful run a re-run over the same
yearly rows (the MonthCache now unchanged) issues no per-month fetch at
all. -/
theorem month_cache_monotone_no_refetch (inp : Inputs) (data : Snapshot)
    (st : CoordState) :
    (∀ k, k ∈ st.cachedMonths → k ∈ (fetchHistorical inp data st).1.cachedMonths) ∧
    (∀ k, k ∈ (fetchHistorical inp data st).2.1 → k ∉ st.cachedMonths) ∧
    ((fetchHistorical inp data st).2.2 = .ok () →
      ∀ (inp2 : Inputs) (data2 : Snapshot), data2.monthRows = data.monthRows →
        (fetchHistorical inp2 data2 (fetchHistorical inp data st).1).2.1 = []) :=
  ⟨fun k hk => fetchHistorical_cachedMonths_monotone inp data st k hk,
   fun k hk => fetchHistorical_log_not_cached inp data st k hk,
   fun hok inp2 data2 hdata =>
     fetchHistorical_log_nil_of_cached inp2 data2 _
       (fun row hrow y m hres => by
         rw [hdata] at hrow
         exact fetchHistorical_ok_resolved_cached inp data st hok row hrow y m hres)⟩

def exC3Inputs : Inputs :=
  ⟨.ok (), .ok (some [⟨"mars 2025", none, none⟩]), .ok none, .ok none, .ok [],
   fun _ => .ok [], ⟨2026, 2, 15⟩⟩

def exC3Data : Snapshot := ⟨some [⟨"mars 2025", none, none⟩], none, none, none⟩

/-- C3 witness: on a fresh coordinator, (2025, 3) is fetched while absent
from the cache, and the immediate second run issues no fetch. -/
theorem month_cache_monotone_no_refetch_witness :
    ((2025, 3) ∉ initState.cachedMonths) ∧
    (fetchHistorical exC3Inputs exC3Data
      (fetchHistorical exC3Inputs exC3Data initState).1).2.1 = [] :=
  ⟨(month_cache_monotone_no_refetch exC3Inputs exC3Data initState).2.1
      (2025, 3) (by decide),
   (month_cache_monotone_no_refetch exC3Inputs exC3Data initState).2.2
      (by decide) exC3Inputs exC3Data rfl⟩

/-- C4: a refresh cycle raises to the caller exactly when login fails (an
auth failure re-raised, anything else wrapped in `UpdateFailed`); when login
succeeds the cycle returns the accumulated snapshot even if sub-fetches
failed, with each failed sub-fetch's fields absent. -/
theorem update_fails_iff_login_fails (inp : Inputs) (st : CoordState) :
    (∀ e, inp.loginResult = .error e →
      (updateData inp st).2.2 = .error (wrapErr e)) ∧
    (inp.loginResult = .ok () →
      (updateData inp st).2.2 = .ok (snapshotOf inp) ∧
      (∀ e, inp.yearlyResult = .error e → (snapshotOf inp).monthRows = none) ∧
      (∀ e, inp.monthlyResult = .error e →
        (snapshotOf inp).currentMonthDaily = none ∧
        (snapshotOf inp).todayDate = none) ∧
      (∀ e, inp.priceResult = .error e → (snapshotOf inp).pricePerKwh = none)) := by
  constructor
  · intro e he
    unfold updateData
    rw [he]
  · intro hok
    refine ⟨?_, ?_, ?_, ?_⟩
    · unfold updateData
      rw [hok]
    · intro e he
      unfold snapshotOf
      rw [he]
    · intro e he
      unfold snapshotOf
      rw [he]
      exact ⟨rfl, rfl⟩
    · intro e he
      unfold snapshotOf
      rw [he]

def exAuthFailInputs : Inputs :=
  ⟨.error .authFailed, .ok none, .ok none, .ok none, .ok [],
   fun _ => .error .transport, ⟨2026, 2, 15⟩⟩

def exPartialInputs : Inputs :=
  ⟨.ok (), .error .transport, .ok (some [("2026-02-01", some 7)]),
   .error .transport, .ok [], fun _ => .ok [], ⟨2026, 2, 15⟩⟩

/-- C4 witness: a failed login propagates as an auth failure, while a cycle
whose yearly and pricelist fetches fail still returns its snapshot, with
those fields absent. -/
theorem update_fails_iff_login_fails_witness :
    (updateData exAuthFailInputs initState).2.2 = .error (wrapErr .authFailed) ∧
    (updateData exPartialInputs initState).2.2 = .ok (snapshotOf exPartialInputs) ∧
    (snapshotOf exPartialInputs).monthRows = none ∧
    (snapshotOf exPartialInputs).pricePerKwh = none :=
  ⟨(update_fails_iff_login_fails exAuthFailInputs initState).1 .authFailed rfl,
   ((update_fails_iff_login_fails exPartialInputs initState).2 rfl).1,
   ((update_fails_iff_login_fails exPartialInputs initState).2 rfl).2.1 .transport rfl,
   ((update_fails_iff_login_fails exPartialInputs initState).2 rfl).2.2.2 .transport rfl⟩
